import Mathlib

/-!
Verification development for the galavox client network/protocol layer.

Shallow embedding conventions:
- Byte buffers are `List Nat` (each element intended `< 256`; reads return the
  stored value unchanged, as JS typed-array reads do on in-range bytes).
- IEEE-754 32-bit floats are embedded by their 32-bit bit patterns (`Nat`):
  the codec only moves float bits between the wire and fields, never computes
  with them, so reading or writing a little-endian f32 is exactly a 4-byte
  little-endian transfer of the bit pattern.
- JavaScript exceptions raised by `DataView` / `Uint8Array` constructors on
  out-of-range access are `RangeError`; decoding is embedded as a total
  function into `Except JsErr _` with `JsErr.rangeError` for that case.
- `TextDecoder` with default options (utf-8, non-fatal, BOM sniffing) is
  embedded as WHATWG UTF-8 decoding with U+FFFD replacement on errors and
  removal of a leading byte-order mark; strings are lists of code points.
- JavaScript numbers in the throttle path (positions, `Date.now()` EPOCH
  milliseconds) are embedded as rationals; no comparison in the claims is
  close enough to a representability boundary for f64 rounding to matter.
-/

namespace Galavox

/-- JavaScript-level faults the decoder can raise: every out-of-range read in
`decodeBincodeGameState` goes through `DataView` getters or the `Uint8Array`
constructor, which throw `RangeError`. -/
inductive JsErr where
  | rangeError
deriving DecidableEq, Repr

/-- Position: three f32 fields (x, y, z), embedded as bit patterns.
Source: interface Position in the types module. -/
structure Position where
  x : Nat
  y : Nat
  z : Nat
deriving DecidableEq, Repr

/-- Color: three u8 channels. Source: interface Color. -/
structure Color where
  r : Nat
  g : Nat
  b : Nat
deriving DecidableEq, Repr

/-- Planet record. Source: interface Planet (size f32, exactly three colors,
module_type u8, position). -/
structure Planet where
  size : Nat
  colors : Color × Color × Color
  module_type : Nat
  position : Position
deriving DecidableEq, Repr

/-- Player record; the name holds the code points produced by TextDecoder.
Source: interface Player. -/
structure Player where
  id : Nat
  name : List Nat
  level : Nat
  position : Position
deriving DecidableEq, Repr

/-- Full game state. Source: interface GameState. -/
structure GameState where
  planets : List Planet
  players : List Player
  initial_player_location : Position
deriving DecidableEq, Repr

/-! ## WHATWG UTF-8 decoding with replacement

Embedding of `new TextDecoder().decode(bytes)`: utf-8 label, fatal false
(invalid sequences produce U+FFFD following the maximal-subpart rule),
ignoreBOM false (a leading EF BB BF is removed). -/

/-- Is a continuation byte (0x80..0xBF). -/
def isCont (c : Nat) : Bool := 0x80 ≤ c && c ≤ 0xBF

/-- Lower bound for the second byte of a 3- or 4-byte sequence headed by b. -/
def utf8Lo (b : Nat) : Nat :=
  if b = 0xE0 then 0xA0 else if b = 0xF0 then 0x90 else 0x80

/-- Upper bound for the second byte of a 3- or 4-byte sequence headed by b. -/
def utf8Hi (b : Nat) : Nat :=
  if b = 0xED then 0x9F else if b = 0xF4 then 0x8F else 0xBF

/-- Core WHATWG UTF-8 decode loop with U+FFFD replacement: on a malformed
continuation byte the offending byte is reconsidered as a new lead byte. -/
def utf8DecodeCore : List Nat → List Nat
  | [] => []
  | b :: rest =>
    if b ≤ 0x7F then b :: utf8DecodeCore rest
    else if 0xC2 ≤ b && b ≤ 0xDF then
      match rest with
      | [] => [0xFFFD]
      | c :: rest2 =>
        if isCont c then
          ((b - 0xC0) * 0x40 + (c - 0x80)) :: utf8DecodeCore rest2
        else 0xFFFD :: utf8DecodeCore (c :: rest2)
    else if 0xE0 ≤ b && b ≤ 0xEF then
      match rest with
      | [] => [0xFFFD]
      | c :: rest2 =>
        if utf8Lo b ≤ c && c ≤ utf8Hi b then
          match rest2 with
          | [] => [0xFFFD]
          | d :: rest3 =>
            if isCont d then
              ((b - 0xE0) * 0x1000 + (c - 0x80) * 0x40 + (d - 0x80)) ::
                utf8DecodeCore rest3
            else 0xFFFD :: utf8DecodeCore (d :: rest3)
        else 0xFFFD :: utf8DecodeCore (c :: rest2)
    else if 0xF0 ≤ b && b ≤ 0xF4 then
      match rest with
      | [] => [0xFFFD]
      | c :: rest2 =>
        if utf8Lo b ≤ c && c ≤ utf8Hi b then
          match rest2 with
          | [] => [0xFFFD]
          | d :: rest3 =>
            if isCont d then
              match rest3 with
              | [] => [0xFFFD]
              | e :: rest4 =>
                if isCont e then
                  ((b - 0xF0) * 0x40000 + (c - 0x80) * 0x1000 +
                    (d - 0x80) * 0x40 + (e - 0x80)) :: utf8DecodeCore rest4
                else 0xFFFD :: utf8DecodeCore (e :: rest4)
            else 0xFFFD :: utf8DecodeCore (d :: rest3)
        else 0xFFFD :: utf8DecodeCore (c :: rest2)
    else 0xFFFD :: utf8DecodeCore rest

/-- Full TextDecoder behaviour: BOM sniffing then the core decode. -/
def utf8DecodeReplace (l : List Nat) : List Nat :=
  match l with
  | 0xEF :: 0xBB :: 0xBF :: r => utf8DecodeCore r
  | _ => utf8DecodeCore l

/-! ## Cursor primitives

The source decoder keeps an explicit `offset` into a fixed `ArrayBuffer` and
advances it after each read; consume-style parsers over the remaining byte
list are the standard equivalent embedding.  Each read helper mirrors one
helper closure of `decodeBincodeGameState` (useGameServer.ts lines 137-183). -/

/-- Take n bytes from the front of the buffer or fail like the DataView
getters and the Uint8Array constructor do (RangeError past the end). -/
def readBytes (n : Nat) (l : List Nat) : Except JsErr (List Nat × List Nat) :=
  if n ≤ l.length then .ok (l.take n, l.drop n) else .error .rangeError

/-- Little-endian value of a byte list (first byte least significant). -/
def leVal : List Nat → Nat
  | [] => 0
  | b :: bs => b + 256 * leVal bs

/-- readU64: view.getBigUint64(offset, true), offset += 8.  (The Number
conversion in the source is exact below 2^53; a count that large exceeds any
real buffer and fails at the same point in either semantics.) -/
def readU64 (l : List Nat) : Except JsErr (Nat × List Nat) := do
  let (bs, r) ← readBytes 8 l
  return (leVal bs, r)

/-- readU32: view.getUint32(offset, true), offset += 4. -/
def readU32 (l : List Nat) : Except JsErr (Nat × List Nat) := do
  let (bs, r) ← readBytes 4 l
  return (leVal bs, r)

/-- readU8: view.getUint8(offset), offset += 1. -/
def readU8 (l : List Nat) : Except JsErr (Nat × List Nat) := do
  let (bs, r) ← readBytes 1 l
  return (leVal bs, r)

/-- readF32: view.getFloat32(offset, true), offset += 4 — embedded as the
32-bit little-endian bit pattern. -/
def readF32 (l : List Nat) : Except JsErr (Nat × List Nat) := do
  let (bs, r) ← readBytes 4 l
  return (leVal bs, r)

/-- readString: an 8-byte length prefix, then that many bytes decoded by
TextDecoder (new Uint8Array(buffer, offset, len) throws RangeError when the
slice passes the end of the buffer). -/
def readString (l : List Nat) : Except JsErr (List Nat × List Nat) := do
  let (len, r) ← readU64 l
  let (bs, r2) ← readBytes len r
  return (utf8DecodeReplace bs, r2)

/-- readPosition: three f32 reads, x then y then z. -/
def readPosition (l : List Nat) : Except JsErr (Position × List Nat) := do
  let (x, r1) ← readF32 l
  let (y, r2) ← readF32 r1
  let (z, r3) ← readF32 r2
  return (⟨x, y, z⟩, r3)

/-- readColor: three u8 reads, r then g then b (the deepFreeze call there has
no effect on the value; freezing is modelled separately). -/
def readColor (l : List Nat) : Except JsErr (Color × List Nat) := do
  let (r, r1) ← readU8 l
  let (g, r2) ← readU8 r1
  let (b, r3) ← readU8 r2
  return (⟨r, g, b⟩, r3)

/-- readPlanet: f32 size, three colors, u8 module_type, position. -/
def readPlanet (l : List Nat) : Except JsErr (Planet × List Nat) := do
  let (size, r1) ← readF32 l
  let (c1, r2) ← readColor r1
  let (c2, r3) ← readColor r2
  let (c3, r4) ← readColor r3
  let (mt, r5) ← readU8 r4
  let (pos, r6) ← readPosition r5
  return (⟨size, (c1, c2, c3), mt, pos⟩, r6)

/-- readPlayer: u32 id, length-prefixed name, u32 level, position. -/
def readPlayer (l : List Nat) : Except JsErr (Player × List Nat) := do
  let (pid, r1) ← readU32 l
  let (name, r2) ← readString r1
  let (level, r3) ← readU32 r2
  let (pos, r4) ← readPosition r3
  return (⟨pid, name, level, pos⟩, r4)

/-- The for-loops pushing `count` records into an array. -/
def readList {α : Type} (p : List Nat → Except JsErr (α × List Nat)) :
    Nat → List Nat → Except JsErr (List α × List Nat)
  | 0, l => .ok ([], l)
  | n + 1, l => do
    let (a, r) ← p l
    let (as, r2) ← readList p n r
    return (a :: as, r2)

/-- decodeBincodeGameState (useGameServer.ts lines 132-230): planet count,
planets, player count, players, trailing initial_player_location; any bytes
left after that are never examined. -/
def decodeBincodeGameState (buffer : List Nat) : Except JsErr GameState := do
  let (planetCount, r1) ← readU64 buffer
  let (planets, r2) ← readList readPlanet planetCount r1
  let (playerCount, r3) ← readU64 r2
  let (players, r4) ← readList readPlayer playerCount r3
  let (initial_player_location, _) ← readPosition r4
  return ⟨planets, players, initial_player_location⟩

/-! ## Connection manager (useGameServer.ts)

The hook keeps React state (gameState, isConnected, error) and two refs
(wsRef, isConnectingRef).  Sockets are modelled with an identity and a
readyState; `nextId` produces fresh socket identities so that distinct
connection attempts are distinguishable.  The blocking 100 ms spin-wait at
the top of `connect` changes no state and is not modelled; the try/catch arm
for a throwing WebSocket constructor is not taken for a well-formed URL. -/

/-- WebSocket readyState constants. -/
inductive ReadyState where
  | CONNECTING
  | OPEN
  | CLOSING
  | CLOSED
deriving DecidableEq, Repr

/-- A transport handle: identity plus readyState. -/
structure Socket where
  id : Nat
  readyState : ReadyState
deriving DecidableEq, Repr

/-- State owned by the hook: React state plus the two refs. -/
structure HookState where
  gameState : Option GameState
  isConnected : Bool
  error : Option String
  ws : Option Socket
  isConnecting : Bool
  nextId : Nat
deriving DecidableEq, Repr

/-- The guard wsRef.current && wsRef.current.readyState === WebSocket.OPEN. -/
def wsOpen (w : Option Socket) : Bool :=
  match w with
  | some s => s.readyState == .OPEN
  | none => false

/-- connect (lines 20-91): if already connecting, or the existing socket is
open, return the existing handle unchanged; otherwise set the connecting
guard and install a fresh socket in wsRef. -/
def connect (m : HookState) : HookState × Option Socket :=
  if m.isConnecting || wsOpen m.ws then (m, m.ws)
  else
    let s : Socket := ⟨m.nextId, .CONNECTING⟩
    ({ m with isConnecting := true, ws := some s, nextId := m.nextId + 1 },
      some s)

/-- Transport-level effect preceding an open event delivered for the socket
currently held in wsRef: the browser marks that socket OPEN before the
handler runs. -/
def transportOpened (m : HookState) : HookState :=
  { m with ws := m.ws.map fun s => { s with readyState := .OPEN } }

/-- socket.onopen (lines 41-46). -/
def handleOpen (m : HookState) : HookState :=
  { m with isConnected := true, error := none, isConnecting := false }

/-- An inbound frame: text or binary payload. -/
inductive MsgData where
  | text (s : String)
  | binary (b : List Nat)

/-- socket.onmessage (lines 48-68): text frames are only logged; binary
frames are decoded — on success the game state is replaced, on a decode
exception only the error string is set. -/
def handleMessage (d : MsgData) (m : HookState) : HookState :=
  match d with
  | .text _ => m
  | .binary b =>
    match decodeBincodeGameState b with
    | .ok gs => { m with gameState := some gs }
    | .error _ => { m with error := some "Failed to decode game state" }

/-- socket.onerror (lines 70-75). -/
def handleError (m : HookState) : HookState :=
  { m with
    error := some "WebSocket connection error"
    isConnected := false
    isConnecting := false }

/-- socket.onclose (lines 77-82): unconditionally clears isConnected, the
connecting guard and wsRef, with no check of which socket the event came
from. -/
def handleClose (m : HookState) : HookState :=
  { m with isConnected := false, isConnecting := false, ws := none }

/-- reconnect (lines 107-113): close the current socket if any (close() only
moves that socket toward CLOSING; its onclose fires later), clear the
connecting guard, then call connect. -/
def reconnect (m : HookState) : HookState × Option Socket :=
  let m1 :=
    match m.ws with
    | some s => { m with ws := some { s with readyState := .CLOSING } }
    | none => m
  connect { m1 with isConnecting := false }

/-! ## Outbound position encoding (gameServerStore.ts lines 41-52 and
useGameServer.ts lines 115-125; the two bodies are identical) -/

/-- Little-endian base-256 digits, fixed width. -/
def leBytes : Nat → Nat → List Nat
  | 0, _ => []
  | w + 1, n => n % 256 :: leBytes w (n / 256)

/-- The 12-byte payload: setFloat32 at offsets 0, 4, 8, little-endian, of
x, y, z — at the bit-pattern level three 4-byte little-endian writes. -/
def encodePositionBytes (xb yb zb : Nat) : List Nat :=
  leBytes 4 xb ++ leBytes 4 yb ++ leBytes 4 zb

/-- sendPosition: transmits the 12-byte payload iff the stored socket exists
and its readyState is OPEN; otherwise nothing is sent or queued. -/
def sendPosition (ws : Option Socket) (xb yb zb : Nat) : Option (List Nat) :=
  match ws with
  | some s =>
    if s.readyState == .OPEN then some (encodePositionBytes xb yb zb)
    else none
  | none => none

/-! ## Outbound throttle (character.tsx lines 121-142 and 529-543; the two
variants compute the same decision) -/

/-- Per-component bookkeeping refs lastSentPosition and lastSentTime. -/
structure Throttle where
  lastSentPosition : ℚ × ℚ × ℚ
  lastSentTime : ℚ
deriving DecidableEq, Repr

/-- Squared Euclidean distance, as accumulated by the source (dx*dx + dy*dy
+ dz*dz) before Math.sqrt is applied. -/
def distSq (cur last : ℚ × ℚ × ℚ) : ℚ :=
  (cur.1 - last.1) * (cur.1 - last.1) +
    (cur.2.1 - last.2.1) * (cur.2.1 - last.2.1) +
    (cur.2.2 - last.2.2) * (cur.2.2 - last.2.2)

/-- The comparison Math.sqrt(distSq) > 0.01 in exact arithmetic: for real
square roots this holds iff distSq > 0.0001 (theorem
distanceExceeds_iff_sqrt below), which is decidable over the rationals. -/
def distanceExceeds (cur last : ℚ × ℚ × ℚ) : Bool :=
  decide ((1 : ℚ) / 10000 < distSq cur last)

/-- One frame of the send-throttle block: if movement input is active and
the distance and interval checks pass, sendPosition is invoked and the two
refs are updated whether or not the socket transmitted.  Returns the new
bookkeeping, whether sendPosition was invoked, and whether bytes were
actually transmitted (the store transmits iff the connection is open). -/
def tick (isMoving : Bool) (now : ℚ) (currentPos : ℚ × ℚ × ℚ)
    (connOpen : Bool) (th : Throttle) : Throttle × Bool × Bool :=
  if isMoving then
    if distanceExceeds currentPos th.lastSentPosition &&
        decide ((100 : ℚ) < now - th.lastSentTime) then
      (⟨currentPos, now⟩, true, connOpen)
    else (th, false, false)
  else (th, false, false)

/-! ## Runtime freezing (deepFreeze in the types module, and the freeze
calls inside decodeBincodeGameState)

decodeBincodeGameState applies deepFreeze to every color (readColor) and to
every planet (readPlanet, recursively freezing its colors array and its
position), and Object.freeze to the planets array; players, their positions,
the players array, the initial_player_location object and the gameState
object itself are never passed to any freeze call.  The hook publishes the
decoded object as-is, so a reader holds references into exactly this graph.
Under ES-module strict mode, assignment to a property of a frozen object
throws; on a non-frozen plain object it succeeds. -/

/-- The kinds of node in the published GameState object graph. -/
inductive GsPart where
  | planetsArray
  | planetRecord
  | colorRecord
  | planetPosition
  | playersArray
  | playerRecord
  | playerPosition
  | initialLoc
  | root
deriving DecidableEq, Repr

/-- Which nodes are frozen when decodeBincodeGameState returns, one case per
freeze call (or absence of one) in the source. -/
def frozenAfterDecode : GsPart → Bool
  | .planetsArray => true
  | .planetRecord => true
  | .colorRecord => true
  | .planetPosition => true
  | .playersArray => false
  | .playerRecord => false
  | .playerPosition => false
  | .initialLoc => false
  | .root => false

/-- A reader writing gs.initial_player_location.x = v: succeeds exactly when
that Position object is not frozen. -/
def setInitialLocX (gs : GameState) (v : Nat) : Option GameState :=
  if frozenAfterDecode .initialLoc then none
  else some { gs with
    initial_player_location := { gs.initial_player_location with x := v } }

/-- A reader writing planet.size = v on a published planet record: succeeds
exactly when the planet record is not frozen. -/
def setPlanetSize (p : Planet) (v : Nat) : Option Planet :=
  if frozenAfterDecode .planetRecord then none
  else some { p with size := v }

/-! ## Spec-side encoder (refinement reference for the decode layout)

The following definitions are modelled from the specification words of the
wire layout — an 8-byte little-endian planet count, the planet records, an
8-byte player count, the player records, then the trailing position — to be
compared against decodeBincodeGameState, which is translated from the
source.  Player names appear here as raw wire bytes. -/

/-- A player as laid out on the wire: the name is still bytes. -/
structure WirePlayer where
  id : Nat
  nameBytes : List Nat
  level : Nat
  position : Position
deriving DecidableEq, Repr

/-- Spec: 8-byte unsigned little-endian integer. -/
def encU64 (n : Nat) : List Nat := leBytes 8 n

/-- Spec: 4-byte unsigned little-endian integer. -/
def encU32 (n : Nat) : List Nat := leBytes 4 n

/-- Spec: 4-byte little-endian float (bit-pattern embedding). -/
def encF32 (n : Nat) : List Nat := leBytes 4 n

/-- Spec: three 4-byte floats x, y, z. -/
def specEncodePosition (p : Position) : List Nat :=
  encF32 p.x ++ encF32 p.y ++ encF32 p.z

/-- Spec: r, g, b, one byte each, no padding. -/
def specEncodeColor (c : Color) : List Nat := [c.r, c.g, c.b]

/-- Spec: size, three colors, module_type byte, position. -/
def specEncodePlanet (p : Planet) : List Nat :=
  encF32 p.size ++ specEncodeColor p.colors.1 ++ specEncodeColor p.colors.2.1
    ++ specEncodeColor p.colors.2.2 ++ [p.module_type]
    ++ specEncodePosition p.position

/-- Spec: id, 8-byte length prefix, name bytes, level, position. -/
def specEncodePlayer (w : WirePlayer) : List Nat :=
  encU32 w.id ++ encU64 w.nameBytes.length ++ w.nameBytes ++ encU32 w.level
    ++ specEncodePosition w.position

/-- Spec: planet count, planets, player count, players, trailing
initial_player_location. -/
def specEncodeGameState (planets : List Planet) (players : List WirePlayer)
    (loc : Position) : List Nat :=
  encU64 planets.length ++ (planets.map specEncodePlanet).flatten
    ++ encU64 players.length ++ (players.map specEncodePlayer).flatten
    ++ specEncodePosition loc

/-- How a wire player appears after decoding: the name bytes go through the
TextDecoder embedding. -/
def interpPlayer (w : WirePlayer) : Player :=
  ⟨w.id, utf8DecodeReplace w.nameBytes, w.level, w.position⟩

/-- Field ranges that make a Position byte-faithful on the wire. -/
def validPosition (p : Position) : Prop :=
  p.x < 2 ^ 32 ∧ p.y < 2 ^ 32 ∧ p.z < 2 ^ 32

/-- Field ranges that make a Color byte-faithful on the wire. -/
def validColor (c : Color) : Prop := c.r < 256 ∧ c.g < 256 ∧ c.b < 256

/-- Field ranges that make a Planet byte-faithful on the wire. -/
def validPlanet (p : Planet) : Prop :=
  p.size < 2 ^ 32 ∧ validColor p.colors.1 ∧ validColor p.colors.2.1 ∧
    validColor p.colors.2.2 ∧ p.module_type < 256 ∧ validPosition p.position

/-- Field ranges that make a WirePlayer byte-faithful on the wire. -/
def validWirePlayer (w : WirePlayer) : Prop :=
  w.id < 2 ^ 32 ∧ w.level < 2 ^ 32 ∧ (∀ b ∈ w.nameBytes, b < 256) ∧
    w.nameBytes.length < 2 ^ 64 ∧ validPosition w.position

/-! ## Concrete scenario data

Float bit patterns used below: 10.0f = 0x41200000, 1.0f = 0x3F800000,
2.0f = 0x40000000, 3.0f = 0x40400000, 5.0f = 0x40A00000, 1.5f = 0x3FC00000,
-2.25f = 0xC0100000, 0.0f = 0x00000000. -/

/-- Wire buffer of the end-to-end scenario: planet_count=1, one planet with
size 10.0, colors (0,0,255), (0,255,0), (128,128,128), module_type 2,
position (1,2,3); player_count=0; initial_player_location (5,5,5). -/
def c1Buffer : List Nat :=
  [1, 0, 0, 0, 0, 0, 0, 0] ++
    [0x00, 0x00, 0x20, 0x41] ++
    [0, 0, 255, 0, 255, 0, 128, 128, 128] ++
    [2] ++
    [0x00, 0x00, 0x80, 0x3F, 0x00, 0x00, 0x00, 0x40, 0x00, 0x00, 0x40, 0x40] ++
    [0, 0, 0, 0, 0, 0, 0, 0] ++
    [0x00, 0x00, 0xA0, 0x40, 0x00, 0x00, 0xA0, 0x40, 0x00, 0x00, 0xA0, 0x40]

/-- The planet of the end-to-end scenario, field values as bit patterns. -/
def c1Planet : Planet :=
  ⟨0x41200000, (⟨0, 0, 255⟩, ⟨0, 255, 0⟩, ⟨128, 128, 128⟩), 2,
    ⟨0x3F800000, 0x40000000, 0x40400000⟩⟩

/-- Expected decode of c1Buffer. -/
def c1Expected : GameState :=
  ⟨[c1Planet], [], ⟨0x40A00000, 0x40A00000, 0x40A00000⟩⟩

/-- A buffer with planet_count=0, one player (id 7, name length 1 with the
single invalid UTF-8 byte 0xFF, level 3, position (0,0,0)) and
initial_player_location (0,0,0). -/
def c3NameBuffer : List Nat :=
  [0, 0, 0, 0, 0, 0, 0, 0] ++
    [1, 0, 0, 0, 0, 0, 0, 0] ++
    [7, 0, 0, 0] ++
    [1, 0, 0, 0, 0, 0, 0, 0] ++ [0xFF] ++
    [3, 0, 0, 0] ++
    [0, 0, 0, 0, 0, 0, 0, 0, 0, 0, 0, 0] ++
    [0, 0, 0, 0, 0, 0, 0, 0, 0, 0, 0, 0]

/-- Decode of c3NameBuffer: the invalid name byte becomes U+FFFD. -/
def c3Expected : GameState :=
  ⟨[], [⟨7, [0xFFFD], 3, ⟨0, 0, 0⟩⟩], ⟨0, 0, 0⟩⟩

/-- The hook state reached by: connect from idle (socket 0), its open event,
then reconnect (which closes socket 0 and installs fresh socket 1) — while
the close event of superseded socket 0 is still in flight. -/
def c8State : HookState :=
  (reconnect (handleOpen (transportOpened
    (connect ⟨none, false, none, none, false, 0⟩).1))).1

/-! ## Basic lemmas about the parsing primitives -/

theorem exceptBind_ok_elim {α β : Type} {x : Except JsErr α}
    {f : α → Except JsErr β} {b : β} (h : x >>= f = .ok b) :
    ∃ a, x = .ok a ∧ f a = .ok b := by
  cases x with
  | error e => simp [Bind.bind, Except.bind] at h
  | ok a => exact ⟨a, rfl, by simpa [Bind.bind, Except.bind] using h⟩

theorem exceptBind_ok_intro {α β : Type} {x : Except JsErr α}
    {f : α → Except JsErr β} {a : α} {b : β} (hx : x = .ok a)
    (hf : f a = .ok b) : x >>= f = .ok b := by
  subst hx
  simpa [Bind.bind, Except.bind] using hf

theorem leBytes_length (w n : Nat) : (leBytes w n).length = w := by
  induction w generalizing n with
  | zero => simp [leBytes]
  | succ k ih => simp [leBytes, ih]

theorem leVal_leBytes (w n : Nat) : leVal (leBytes w n) = n % 2 ^ (8 * w) := by
  induction w generalizing n with
  | zero => simp [leBytes, leVal, Nat.mod_one]
  | succ k ih =>
    have h2 : (2 : Nat) ^ (8 * (k + 1)) = 256 * 2 ^ (8 * k) := by
      rw [Nat.mul_add, Nat.pow_add]
      ring
    rw [leBytes, leVal, ih, h2, Nat.mod_mul]

theorem leVal_leBytes_of_lt {w n : Nat} (h : n < 2 ^ (8 * w)) :
    leVal (leBytes w n) = n := by
  rw [leVal_leBytes, Nat.mod_eq_of_lt h]

theorem readBytes_exact {bs : List Nat} {n : Nat} (h : bs.length = n)
    (rest : List Nat) : readBytes n (bs ++ rest) = .ok (bs, rest) := by
  subst h
  simp [readBytes, List.take_left, List.drop_left]

theorem readU64_enc {n : Nat} (h : n < 2 ^ 64) (rest : List Nat) :
    readU64 (encU64 n ++ rest) = .ok (n, rest) := by
  have h8 : n < 2 ^ (8 * 8) := h
  rw [readU64, encU64]
  exact exceptBind_ok_intro (readBytes_exact (leBytes_length 8 n) rest)
    (by simp [pure, Except.pure, leVal_leBytes_of_lt h8])

theorem readU32_enc {n : Nat} (h : n < 2 ^ 32) (rest : List Nat) :
    readU32 (encU32 n ++ rest) = .ok (n, rest) := by
  have h4 : n < 2 ^ (8 * 4) := h
  rw [readU32, encU32]
  exact exceptBind_ok_intro (readBytes_exact (leBytes_length 4 n) rest)
    (by simp [pure, Except.pure, leVal_leBytes_of_lt h4])

theorem readF32_enc {n : Nat} (h : n < 2 ^ 32) (rest : List Nat) :
    readF32 (encF32 n ++ rest) = .ok (n, rest) := by
  have h4 : n < 2 ^ (8 * 4) := h
  rw [readF32, encF32]
  exact exceptBind_ok_intro (readBytes_exact (leBytes_length 4 n) rest)
    (by simp [pure, Except.pure, leVal_leBytes_of_lt h4])

theorem readU8_enc (b : Nat) (rest : List Nat) :
    readU8 (b :: rest) = .ok (b, rest) := by
  rw [readU8]
  exact exceptBind_ok_intro (@readBytes_exact [b] 1 rfl rest)
    (by simp [pure, Except.pure, leVal])

theorem readString_enc {bs : List Nat} (h : bs.length < 2 ^ 64)
    (rest : List Nat) :
    readString (encU64 bs.length ++ (bs ++ rest)) =
      .ok (utf8DecodeReplace bs, rest) := by
  rw [readString]
  exact exceptBind_ok_intro (readU64_enc h (bs ++ rest))
    (exceptBind_ok_intro (readBytes_exact rfl rest)
      (by simp [pure, Except.pure]))

theorem readPosition_enc {p : Position} (h : validPosition p)
    (rest : List Nat) :
    readPosition (specEncodePosition p ++ rest) = .ok (p, rest) := by
  obtain ⟨hx, hy, hz⟩ := h
  rw [readPosition, specEncodePosition, List.append_assoc, List.append_assoc]
  exact exceptBind_ok_intro (readF32_enc hx _)
    (exceptBind_ok_intro (readF32_enc hy _)
      (exceptBind_ok_intro (readF32_enc hz _) (by simp [pure, Except.pure])))

theorem readColor_enc (c : Color) (rest : List Nat) :
    readColor (specEncodeColor c ++ rest) = .ok (c, rest) := by
  rw [readColor, specEncodeColor]
  exact exceptBind_ok_intro (readU8_enc c.r (c.g :: c.b :: rest))
    (exceptBind_ok_intro (readU8_enc c.g (c.b :: rest))
      (exceptBind_ok_intro (readU8_enc c.b rest)
        (by simp [pure, Except.pure])))

theorem readPlanet_enc {p : Planet} (h : validPlanet p) (rest : List Nat) :
    readPlanet (specEncodePlanet p ++ rest) = .ok (p, rest) := by
  obtain ⟨hsize, _, _, _, _, hpos⟩ := h
  rw [readPlanet, specEncodePlanet]
  simp only [List.append_assoc]
  exact exceptBind_ok_intro (readF32_enc hsize _)
    (exceptBind_ok_intro (readColor_enc p.colors.1 _)
      (exceptBind_ok_intro (readColor_enc p.colors.2.1 _)
        (exceptBind_ok_intro (readColor_enc p.colors.2.2 _)
          (exceptBind_ok_intro (readU8_enc p.module_type _)
            (exceptBind_ok_intro (readPosition_enc hpos rest)
              (by simp [pure, Except.pure]))))))

theorem readPlayer_enc {w : WirePlayer} (h : validWirePlayer w)
    (rest : List Nat) :
    readPlayer (specEncodePlayer w ++ rest) = .ok (interpPlayer w, rest) := by
  obtain ⟨hid, hlevel, _, hlen, hpos⟩ := h
  rw [readPlayer, specEncodePlayer]
  simp only [List.append_assoc]
  exact exceptBind_ok_intro (readU32_enc hid _)
    (exceptBind_ok_intro (readString_enc hlen _)
      (exceptBind_ok_intro (readU32_enc hlevel _)
        (exceptBind_ok_intro (readPosition_enc hpos rest)
          (by simp [pure, Except.pure, interpPlayer]))))

theorem readList_enc {α β : Type} {p : List Nat → Except JsErr (β × List Nat)}
    {enc : α → List Nat} {f : α → β} {P : α → Prop}
    (hp : ∀ a rest, P a → p (enc a ++ rest) = .ok (f a, rest)) :
    ∀ (as : List α) (rest : List Nat), (∀ a ∈ as, P a) →
      readList p as.length ((as.map enc).flatten ++ rest) =
        .ok (as.map f, rest)
  | [], rest, _ => by simp [readList]
  | a :: as, rest, hall => by
    rw [List.map_cons, List.flatten_cons, List.length_cons, readList,
      List.append_assoc]
    exact exceptBind_ok_intro (hp a _ (hall a (by simp)))
      (exceptBind_ok_intro
        (readList_enc hp as rest fun x hx => hall x (by simp [hx]))
        (by simp [pure, Except.pure]))

/-- Decoding a buffer laid out exactly as the specification describes yields
the encoded records in order, with player names passed through the
TextDecoder embedding. -/
theorem decode_specEncode {planets : List Planet} {players : List WirePlayer}
    {loc : Position} (hplen : planets.length < 2 ^ 64)
    (hqlen : players.length < 2 ^ 64) (hp : ∀ p ∈ planets, validPlanet p)
    (hq : ∀ w ∈ players, validWirePlayer w) (hloc : validPosition loc) :
    decodeBincodeGameState (specEncodeGameState planets players loc) =
      .ok ⟨planets, players.map interpPlayer, loc⟩ := by
  have hshape : specEncodeGameState planets players loc =
      encU64 planets.length ++ ((planets.map specEncodePlanet).flatten ++
        (encU64 players.length ++ ((players.map specEncodePlayer).flatten ++
          (specEncodePosition loc ++ [])))) := by
    rw [List.append_nil]
    simp [specEncodeGameState, List.append_assoc]
  rw [decodeBincodeGameState, hshape]
  exact exceptBind_ok_intro (readU64_enc hplen _)
    (exceptBind_ok_intro
      (readList_enc (fun a rest h => readPlanet_enc h rest) planets _ hp)
      (exceptBind_ok_intro (readU64_enc hqlen _)
        (exceptBind_ok_intro
          (readList_enc (fun a rest h => readPlayer_enc h rest) players _ hq)
          (exceptBind_ok_intro (readPosition_enc hloc [])
            (by simp [pure, Except.pure, List.map_id])))))

/-! ## Extension lemmas: a successful parse of a buffer is unchanged by
extra bytes appended after it, which only lengthen the unread remainder. -/

theorem readBytes_ext {n : Nat} {l a r : List Nat} (e : List Nat)
    (h : readBytes n l = .ok (a, r)) :
    readBytes n (l ++ e) = .ok (a, r ++ e) := by
  by_cases hn : n ≤ l.length
  · rw [readBytes, if_pos hn] at h
    injection h with h1
    cases h1
    rw [readBytes, if_pos (by simp only [List.length_append]; omega)]
    rw [List.take_append_of_le_length hn, List.drop_append_of_le_length hn]
  · rw [readBytes, if_neg hn] at h
    exact absurd h (by simp)

theorem readU64_ext {l r : List Nat} {v : Nat} (e : List Nat)
    (h : readU64 l = .ok (v, r)) : readU64 (l ++ e) = .ok (v, r ++ e) := by
  rw [readU64] at h ⊢
  obtain ⟨⟨bs, r0⟩, h1, h2⟩ := exceptBind_ok_elim h
  simp only [pure, Except.pure, Except.ok.injEq, Prod.mk.injEq] at h2
  obtain ⟨hv, hr⟩ := h2
  subst hv
  subst hr
  exact exceptBind_ok_intro (readBytes_ext e h1) (by simp [pure, Except.pure])

theorem readU32_ext {l r : List Nat} {v : Nat} (e : List Nat)
    (h : readU32 l = .ok (v, r)) : readU32 (l ++ e) = .ok (v, r ++ e) := by
  rw [readU32] at h ⊢
  obtain ⟨⟨bs, r0⟩, h1, h2⟩ := exceptBind_ok_elim h
  simp only [pure, Except.pure, Except.ok.injEq, Prod.mk.injEq] at h2
  obtain ⟨hv, hr⟩ := h2
  subst hv
  subst hr
  exact exceptBind_ok_intro (readBytes_ext e h1) (by simp [pure, Except.pure])

theorem readU8_ext {l r : List Nat} {v : Nat} (e : List Nat)
    (h : readU8 l = .ok (v, r)) : readU8 (l ++ e) = .ok (v, r ++ e) := by
  rw [readU8] at h ⊢
  obtain ⟨⟨bs, r0⟩, h1, h2⟩ := exceptBind_ok_elim h
  simp only [pure, Except.pure, Except.ok.injEq, Prod.mk.injEq] at h2
  obtain ⟨hv, hr⟩ := h2
  subst hv
  subst hr
  exact exceptBind_ok_intro (readBytes_ext e h1) (by simp [pure, Except.pure])

theorem readF32_ext {l r : List Nat} {v : Nat} (e : List Nat)
    (h : readF32 l = .ok (v, r)) : readF32 (l ++ e) = .ok (v, r ++ e) := by
  rw [readF32] at h ⊢
  obtain ⟨⟨bs, r0⟩, h1, h2⟩ := exceptBind_ok_elim h
  simp only [pure, Except.pure, Except.ok.injEq, Prod.mk.injEq] at h2
  obtain ⟨hv, hr⟩ := h2
  subst hv
  subst hr
  exact exceptBind_ok_intro (readBytes_ext e h1) (by simp [pure, Except.pure])

theorem readString_ext {l r s : List Nat} (e : List Nat)
    (h : readString l = .ok (s, r)) :
    readString (l ++ e) = .ok (s, r ++ e) := by
  rw [readString] at h ⊢
  obtain ⟨⟨len, r1⟩, h1, h⟩ := exceptBind_ok_elim h
  obtain ⟨⟨bs, r2⟩, h2, h⟩ := exceptBind_ok_elim h
  simp only [pure, Except.pure, Except.ok.injEq, Prod.mk.injEq] at h
  obtain ⟨hs, hr⟩ := h
  subst hs
  subst hr
  exact exceptBind_ok_intro (readU64_ext e h1)
    (exceptBind_ok_intro (readBytes_ext e h2) (by simp [pure, Except.pure]))

theorem readPosition_ext {l r : List Nat} {p : Position} (e : List Nat)
    (h : readPosition l = .ok (p, r)) :
    readPosition (l ++ e) = .ok (p, r ++ e) := by
  rw [readPosition] at h ⊢
  obtain ⟨⟨x, r1⟩, h1, h⟩ := exceptBind_ok_elim h
  obtain ⟨⟨y, r2⟩, h2, h⟩ := exceptBind_ok_elim h
  obtain ⟨⟨z, r3⟩, h3, h⟩ := exceptBind_ok_elim h
  simp only [pure, Except.pure, Except.ok.injEq, Prod.mk.injEq] at h
  obtain ⟨hp, hr⟩ := h
  subst hp
  subst hr
  exact exceptBind_ok_intro (readF32_ext e h1)
    (exceptBind_ok_intro (readF32_ext e h2)
      (exceptBind_ok_intro (readF32_ext e h3) (by simp [pure, Except.pure])))

theorem readColor_ext {l r : List Nat} {c : Color} (e : List Nat)
    (h : readColor l = .ok (c, r)) :
    readColor (l ++ e) = .ok (c, r ++ e) := by
  rw [readColor] at h ⊢
  obtain ⟨⟨b1, r1⟩, h1, h⟩ := exceptBind_ok_elim h
  obtain ⟨⟨b2, r2⟩, h2, h⟩ := exceptBind_ok_elim h
  obtain ⟨⟨b3, r3⟩, h3, h⟩ := exceptBind_ok_elim h
  simp only [pure, Except.pure, Except.ok.injEq, Prod.mk.injEq] at h
  obtain ⟨hc, hr⟩ := h
  subst hc
  subst hr
  exact exceptBind_ok_intro (readU8_ext e h1)
    (exceptBind_ok_intro (readU8_ext e h2)
      (exceptBind_ok_intro (readU8_ext e h3) (by simp [pure, Except.pure])))

theorem readPlanet_ext {l r : List Nat} {p : Planet} (e : List Nat)
    (h : readPlanet l = .ok (p, r)) :
    readPlanet (l ++ e) = .ok (p, r ++ e) := by
  rw [readPlanet] at h ⊢
  obtain ⟨⟨size, r1⟩, h1, h⟩ := exceptBind_ok_elim h
  obtain ⟨⟨c1, r2⟩, h2, h⟩ := exceptBind_ok_elim h
  obtain ⟨⟨c2, r3⟩, h3, h⟩ := exceptBind_ok_elim h
  obtain ⟨⟨c3, r4⟩, h4, h⟩ := exceptBind_ok_elim h
  obtain ⟨⟨mt, r5⟩, h5, h⟩ := exceptBind_ok_elim h
  obtain ⟨⟨pos, r6⟩, h6, h⟩ := exceptBind_ok_elim h
  simp only [pure, Except.pure, Except.ok.injEq, Prod.mk.injEq] at h
  obtain ⟨hp, hr⟩ := h
  subst hp
  subst hr
  exact exceptBind_ok_intro (readF32_ext e h1)
    (exceptBind_ok_intro (readColor_ext e h2)
      (exceptBind_ok_intro (readColor_ext e h3)
        (exceptBind_ok_intro (readColor_ext e h4)
          (exceptBind_ok_intro (readU8_ext e h5)
            (exceptBind_ok_intro (readPosition_ext e h6)
              (by simp [pure, Except.pure]))))))

theorem readPlayer_ext {l r : List Nat} {w : Player} (e : List Nat)
    (h : readPlayer l = .ok (w, r)) :
    readPlayer (l ++ e) = .ok (w, r ++ e) := by
  rw [readPlayer] at h ⊢
  obtain ⟨⟨pid, r1⟩, h1, h⟩ := exceptBind_ok_elim h
  obtain ⟨⟨name, r2⟩, h2, h⟩ := exceptBind_ok_elim h
  obtain ⟨⟨level, r3⟩, h3, h⟩ := exceptBind_ok_elim h
  obtain ⟨⟨pos, r4⟩, h4, h⟩ := exceptBind_ok_elim h
  simp only [pure, Except.pure, Except.ok.injEq, Prod.mk.injEq] at h
  obtain ⟨hw, hr⟩ := h
  subst hw
  subst hr
  exact exceptBind_ok_intro (readU32_ext e h1)
    (exceptBind_ok_intro (readString_ext e h2)
      (exceptBind_ok_intro (readU32_ext e h3)
        (exceptBind_ok_intro (readPosition_ext e h4)
          (by simp [pure, Except.pure]))))

theorem readList_ext {α : Type} {p : List Nat → Except JsErr (α × List Nat)}
    (hp : ∀ {l a r : _} (e : List Nat), p l = .ok (a, r) →
      p (l ++ e) = .ok (a, r ++ e)) :
    ∀ (n : Nat) {l r : List Nat} {as : List α} (e : List Nat),
      readList p n l = .ok (as, r) → readList p n (l ++ e) = .ok (as, r ++ e) := by
  intro n
  induction n with
  | zero =>
    intro l r as e h
    rw [readList] at h
    injection h with h1
    cases h1
    rw [readList]
  | succ k ih =>
    intro l r as e h
    rw [readList] at h ⊢
    obtain ⟨⟨a, r1⟩, h1, h⟩ := exceptBind_ok_elim h
    obtain ⟨⟨tl, r2⟩, h2, h⟩ := exceptBind_ok_elim h
    simp only [pure, Except.pure, Except.ok.injEq, Prod.mk.injEq] at h
    obtain ⟨has, hr⟩ := h
    subst has
    subst hr
    exact exceptBind_ok_intro (hp e h1)
      (exceptBind_ok_intro (ih e h2) (by simp [pure, Except.pure]))

/-! ## Consumption lemmas: every successful read shortens the remaining
buffer by the number of bytes consumed, so a successful decode needs a
minimum buffer length determined by the decoded counts. -/

theorem readBytes_len {n : Nat} {l a r : List Nat}
    (h : readBytes n l = .ok (a, r)) : r.length + n = l.length := by
  by_cases hn : n ≤ l.length
  · rw [readBytes, if_pos hn] at h
    injection h with h1
    cases h1
    simp only [List.length_drop]
    omega
  · rw [readBytes, if_neg hn] at h
    exact absurd h (by simp)

theorem readU64_len {l r : List Nat} {v : Nat}
    (h : readU64 l = .ok (v, r)) : r.length + 8 = l.length := by
  rw [readU64] at h
  obtain ⟨⟨bs, r0⟩, h1, h2⟩ := exceptBind_ok_elim h
  simp only [pure, Except.pure, Except.ok.injEq, Prod.mk.injEq] at h2
  obtain ⟨_, hr⟩ := h2
  subst hr
  exact readBytes_len h1

theorem readU32_len {l r : List Nat} {v : Nat}
    (h : readU32 l = .ok (v, r)) : r.length + 4 = l.length := by
  rw [readU32] at h
  obtain ⟨⟨bs, r0⟩, h1, h2⟩ := exceptBind_ok_elim h
  simp only [pure, Except.pure, Except.ok.injEq, Prod.mk.injEq] at h2
  obtain ⟨_, hr⟩ := h2
  subst hr
  exact readBytes_len h1

theorem readU8_len {l r : List Nat} {v : Nat}
    (h : readU8 l = .ok (v, r)) : r.length + 1 = l.length := by
  rw [readU8] at h
  obtain ⟨⟨bs, r0⟩, h1, h2⟩ := exceptBind_ok_elim h
  simp only [pure, Except.pure, Except.ok.injEq, Prod.mk.injEq] at h2
  obtain ⟨_, hr⟩ := h2
  subst hr
  exact readBytes_len h1

theorem readF32_len {l r : List Nat} {v : Nat}
    (h : readF32 l = .ok (v, r)) : r.length + 4 = l.length := by
  rw [readF32] at h
  obtain ⟨⟨bs, r0⟩, h1, h2⟩ := exceptBind_ok_elim h
  simp only [pure, Except.pure, Except.ok.injEq, Prod.mk.injEq] at h2
  obtain ⟨_, hr⟩ := h2
  subst hr
  exact readBytes_len h1

theorem readString_len {l r s : List Nat}
    (h : readString l = .ok (s, r)) : r.length + 8 ≤ l.length := by
  rw [readString] at h
  obtain ⟨⟨len, r1⟩, h1, h⟩ := exceptBind_ok_elim h
  obtain ⟨⟨bs, r2⟩, h2, h⟩ := exceptBind_ok_elim h
  simp only [pure, Except.pure, Except.ok.injEq, Prod.mk.injEq] at h
  obtain ⟨_, hr⟩ := h
  subst hr
  have e1 := readU64_len h1
  have e2 := readBytes_len h2
  omega

theorem readPosition_len {l r : List Nat} {p : Position}
    (h : readPosition l = .ok (p, r)) : r.length + 12 = l.length := by
  rw [readPosition] at h
  obtain ⟨⟨x, r1⟩, h1, h⟩ := exceptBind_ok_elim h
  obtain ⟨⟨y, r2⟩, h2, h⟩ := exceptBind_ok_elim h
  obtain ⟨⟨z, r3⟩, h3, h⟩ := exceptBind_ok_elim h
  simp only [pure, Except.pure, Except.ok.injEq, Prod.mk.injEq] at h
  obtain ⟨_, hr⟩ := h
  subst hr
  have e1 := readF32_len h1
  have e2 := readF32_len h2
  have e3 := readF32_len h3
  omega

theorem readColor_len {l r : List Nat} {c : Color}
    (h : readColor l = .ok (c, r)) : r.length + 3 = l.length := by
  rw [readColor] at h
  obtain ⟨⟨b1, r1⟩, h1, h⟩ := exceptBind_ok_elim h
  obtain ⟨⟨b2, r2⟩, h2, h⟩ := exceptBind_ok_elim h
  obtain ⟨⟨b3, r3⟩, h3, h⟩ := exceptBind_ok_elim h
  simp only [pure, Except.pure, Except.ok.injEq, Prod.mk.injEq] at h
  obtain ⟨_, hr⟩ := h
  subst hr
  have e1 := readU8_len h1
  have e2 := readU8_len h2
  have e3 := readU8_len h3
  omega

theorem readPlanet_len {l r : List Nat} {p : Planet}
    (h : readPlanet l = .ok (p, r)) : r.length + 26 = l.length := by
  rw [readPlanet] at h
  obtain ⟨⟨size, r1⟩, h1, h⟩ := exceptBind_ok_elim h
  obtain ⟨⟨c1, r2⟩, h2, h⟩ := exceptBind_ok_elim h
  obtain ⟨⟨c2, r3⟩, h3, h⟩ := exceptBind_ok_elim h
  obtain ⟨⟨c3, r4⟩, h4, h⟩ := exceptBind_ok_elim h
  obtain ⟨⟨mt, r5⟩, h5, h⟩ := exceptBind_ok_elim h
  obtain ⟨⟨pos, r6⟩, h6, h⟩ := exceptBind_ok_elim h
  simp only [pure, Except.pure, Except.ok.injEq, Prod.mk.injEq] at h
  obtain ⟨_, hr⟩ := h
  subst hr
  have e1 := readF32_len h1
  have e2 := readColor_len h2
  have e3 := readColor_len h3
  have e4 := readColor_len h4
  have e5 := readU8_len h5
  have e6 := readPosition_len h6
  omega

theorem readPlayer_len {l r : List Nat} {w : Player}
    (h : readPlayer l = .ok (w, r)) : r.length + 28 ≤ l.length := by
  rw [readPlayer] at h
  obtain ⟨⟨pid, r1⟩, h1, h⟩ := exceptBind_ok_elim h
  obtain ⟨⟨name, r2⟩, h2, h⟩ := exceptBind_ok_elim h
  obtain ⟨⟨level, r3⟩, h3, h⟩ := exceptBind_ok_elim h
  obtain ⟨⟨pos, r4⟩, h4, h⟩ := exceptBind_ok_elim h
  simp only [pure, Except.pure, Except.ok.injEq, Prod.mk.injEq] at h
  obtain ⟨_, hr⟩ := h
  subst hr
  have e1 := readU32_len h1
  have e2 := readString_len h2
  have e3 := readU32_len h3
  have e4 := readPosition_len h4
  omega

theorem readList_len {α : Type} {p : List Nat → Except JsErr (α × List Nat)}
    {k : Nat} (hp : ∀ {l a r : _}, p l = .ok (a, r) → r.length + k ≤ l.length) :
    ∀ (n : Nat) {l r : List Nat} {as : List α},
      readList p n l = .ok (as, r) →
        r.length + k * n ≤ l.length ∧ as.length = n := by
  intro n
  induction n with
  | zero =>
    intro l r as h
    rw [readList] at h
    injection h with h1
    cases h1
    simp
  | succ m ih =>
    intro l r as h
    rw [readList] at h
    obtain ⟨⟨a, r1⟩, h1, h⟩ := exceptBind_ok_elim h
    obtain ⟨⟨tl, r2⟩, h2, h⟩ := exceptBind_ok_elim h
    simp only [pure, Except.pure, Except.ok.injEq, Prod.mk.injEq] at h
    obtain ⟨has, hr⟩ := h
    subst has
    subst hr
    have e1 := hp h1
    obtain ⟨e2, e3⟩ := ih h2
    constructor
    · have : k * (m + 1) = k * m + k := by ring
      omega
    · simp [e3]

theorem decode_len {l : List Nat} {gs : GameState}
    (h : decodeBincodeGameState l = .ok gs) :
    28 + 26 * gs.planets.length + 28 * gs.players.length ≤ l.length := by
  rw [decodeBincodeGameState] at h
  obtain ⟨⟨n1, r1⟩, h1, h⟩ := exceptBind_ok_elim h
  obtain ⟨⟨ps, r2⟩, h2, h⟩ := exceptBind_ok_elim h
  obtain ⟨⟨n2, r3⟩, h3, h⟩ := exceptBind_ok_elim h
  obtain ⟨⟨qs, r4⟩, h4, h⟩ := exceptBind_ok_elim h
  obtain ⟨⟨loc, r5⟩, h5, h⟩ := exceptBind_ok_elim h
  simp only [pure, Except.pure, Except.ok.injEq] at h
  subst h
  have e1 := readU64_len h1
  obtain ⟨e2, e2n⟩ := readList_len (fun h => Nat.le_of_eq (readPlanet_len h)) n1 h2
  have e3 := readU64_len h3
  obtain ⟨e4, e4n⟩ := readList_len (fun h => readPlayer_len h) n2 h4
  have e5 := readPosition_len h5
  simp only [e2n, e4n]
  omega

/-- Bridge between the decidable squared comparison used in the embedding
and the Math.sqrt comparison written in the source: over exact arithmetic,
sqrt(d) > 0.01 holds iff d > 0.0001. -/
theorem distanceExceeds_iff_sqrt (cur last : ℚ × ℚ × ℚ) :
    distanceExceeds cur last = true ↔
      (1 : ℝ) / 100 < Real.sqrt ((distSq cur last : ℚ) : ℝ) := by
  rw [distanceExceeds, decide_eq_true_eq]
  rw [Real.lt_sqrt (by norm_num : (0 : ℝ) ≤ 1 / 100)]
  rw [show ((1 : ℝ) / 100) ^ 2 = ((1 / 10000 : ℚ) : ℝ) by norm_num]
  exact ⟨fun h => by exact_mod_cast h, fun h => by exact_mod_cast h⟩

/-- Claim C1: decode_game_state reads fields little-endian in exactly the
documented positional order — decoding any buffer laid out per the spec
encoder returns exactly the encoded records — and the concrete scenario
buffer (planet_count=1, Planet(size=10.0, colors (0,0,255)/(0,255,0)/
(128,128,128), module_type=2, position (1,2,3)), player_count=0,
initial_player_location (5,5,5)) decodes to exactly that GameState with an
empty players list. -/
theorem claim_C1 :
    (∀ (planets : List Planet) (players : List WirePlayer) (loc : Position),
      planets.length < 2 ^ 64 → players.length < 2 ^ 64 →
      (∀ p ∈ planets, validPlanet p) → (∀ w ∈ players, validWirePlayer w) →
      validPosition loc →
      decodeBincodeGameState (specEncodeGameState planets players loc) =
        .ok ⟨planets, players.map interpPlayer, loc⟩) ∧
    decodeBincodeGameState c1Buffer = .ok c1Expected :=
  ⟨fun _ _ _ h1 h2 h3 h4 h5 => decode_specEncode h1 h2 h3 h4 h5, by rfl⟩

/-- Witness for claim C1 at the scenario data. -/
theorem claim_C1_witness :
    decodeBincodeGameState (specEncodeGameState [c1Planet] []
        ⟨0x40A00000, 0x40A00000, 0x40A00000⟩) =
      .ok ⟨[c1Planet], [], ⟨0x40A00000, 0x40A00000, 0x40A00000⟩⟩ :=
  claim_C1.1 [c1Planet] [] ⟨0x40A00000, 0x40A00000, 0x40A00000⟩
    (by norm_num) (by norm_num)
    (by
      simp only [List.mem_singleton, forall_eq]
      norm_num [validPlanet, validColor, validPosition, c1Planet])
    (by simp)
    (by norm_num [validPosition])

/-- Claim C2 is violated by the code: at a tick where all three send
conditions hold but the connection is not open, nothing is transmitted
(third component false), yet both last-sent fields are updated — the
refs are assigned after calling sendPosition regardless of whether the
store actually wrote to the socket. -/
theorem claim_C2 :
    tick true 1150 (1, 0, 0) false ⟨(0, 0, 0), 1000⟩ =
      (⟨(1, 0, 0), 1150⟩, true, false) ∧
    (⟨(1, 0, 0), 1150⟩ : Throttle) ≠ ⟨(0, 0, 0), 1000⟩ := by
  constructor
  · have h1 : distanceExceeds (1, 0, 0) (0, 0, 0) = true := by
      simp only [distanceExceeds, distSq, decide_eq_true_eq]
      norm_num
    have hb : (distanceExceeds (1, 0, 0) (0, 0, 0) &&
        decide ((100 : ℚ) < 1150 - 1000)) = true := by
      rw [h1, Bool.true_and, decide_eq_true_eq]
      norm_num
    unfold tick
    rw [if_pos rfl, if_pos hb]
  · intro h
    injection h with h1 h2
    exact absurd h2 (by norm_num)

/-- Claim C3 fails as stated: the decoder has no error taxonomy at all.
The invalid-UTF-8 name buffer decodes successfully, with the bad byte
silently replaced by U+FFFD, instead of failing with InvalidText. -/
theorem claim_C3_counterexample :
    decodeBincodeGameState c3NameBuffer = .ok c3Expected ∧
    c3Expected.players.map Player.name = [[0xFFFD]] := ⟨rfl, rfl⟩

/-- Claim C3 amended: decoding is total over JS RangeError — a successful
decode needs at least 28 + 26 bytes per planet + 28 bytes per player, every
buffer below the 28-byte floor fails with rangeError (never an out-of-range
memory access), and invalid UTF-8 in a name is decoded with U+FFFD
replacement rather than an error. -/
theorem claim_C3 :
    (∀ (l : List Nat) (gs : GameState), decodeBincodeGameState l = .ok gs →
      28 + 26 * gs.planets.length + 28 * gs.players.length ≤ l.length) ∧
    (∀ l : List Nat, l.length < 28 →
      decodeBincodeGameState l = .error .rangeError) ∧
    decodeBincodeGameState c3NameBuffer = .ok c3Expected := by
  refine ⟨fun l gs h => decode_len h, fun l hl => ?_, rfl⟩
  cases h : decodeBincodeGameState l with
  | ok gs => exact absurd (decode_len h) (by omega)
  | error e => cases e; rfl

/-- Witness for claim C3 at concrete buffers. -/
theorem claim_C3_witness :
    decodeBincodeGameState [] = .error .rangeError ∧
    28 + 26 * c3Expected.planets.length + 28 * c3Expected.players.length ≤
      c3NameBuffer.length :=
  ⟨claim_C3.2.1 [] (by decide),
    claim_C3.1 c3NameBuffer c3Expected claim_C3.2.2⟩

/-- Claim C4: when a binary frame fails to decode, the previously published
GameState is untouched, the non-fatal error string is published, and the
socket reference, connection flag and connecting guard are all unchanged —
the connection is not closed by a decode failure. -/
theorem claim_C4 : ∀ (m : HookState) (b : List Nat) (e : JsErr),
    decodeBincodeGameState b = .error e →
    (handleMessage (.binary b) m).gameState = m.gameState ∧
    (handleMessage (.binary b) m).error = some "Failed to decode game state" ∧
    (handleMessage (.binary b) m).ws = m.ws ∧
    (handleMessage (.binary b) m).isConnected = m.isConnected ∧
    (handleMessage (.binary b) m).isConnecting = m.isConnecting := by
  intro m b e h
  simp [handleMessage, h]

/-- Witness for claim C4: the empty frame fails to decode and only the
error field changes. -/
theorem claim_C4_witness :
    (handleMessage (.binary [])
        ⟨some c1Expected, true, none, some ⟨0, .OPEN⟩, false, 1⟩).gameState =
      some c1Expected ∧
    (handleMessage (.binary [])
        ⟨some c1Expected, true, none, some ⟨0, .OPEN⟩, false, 1⟩).error =
      some "Failed to decode game state" ∧
    (handleMessage (.binary [])
        ⟨some c1Expected, true, none, some ⟨0, .OPEN⟩, false, 1⟩).ws =
      some ⟨0, .OPEN⟩ ∧
    (handleMessage (.binary [])
        ⟨some c1Expected, true, none, some ⟨0, .OPEN⟩, false, 1⟩).isConnected =
      true ∧
    (handleMessage (.binary [])
        ⟨some c1Expected, true, none, some ⟨0, .OPEN⟩, false, 1⟩).isConnecting =
      false :=
  claim_C4 ⟨some c1Expected, true, none, some ⟨0, .OPEN⟩, false, 1⟩ []
    .rangeError rfl

/-- Claim C5: connect is a no-op returning the existing handle whenever the
connecting guard is set or the existing socket is open, and two connect
calls in succession from an idle state produce exactly one fresh socket —
the second call returns the first handle and changes nothing. -/
theorem claim_C5 :
    (∀ m : HookState, m.isConnecting = true ∨ wsOpen m.ws = true →
      connect m = (m, m.ws)) ∧
    (∀ m : HookState, m.isConnecting = false → m.ws = none →
      connect (connect m).1 = ((connect m).1, (connect m).2) ∧
      (connect m).2 = some ⟨m.nextId, .CONNECTING⟩ ∧
      (connect m).1.nextId = m.nextId + 1) := by
  constructor
  · intro m h
    unfold connect
    rcases h with h | h
    · rw [if_pos (by rw [h, Bool.true_or])]
    · rw [if_pos (by rw [h, Bool.or_true])]
  · intro m h1 h2
    have hc1 : connect m =
        ({ m with
            isConnecting := true
            ws := some ⟨m.nextId, .CONNECTING⟩
            nextId := m.nextId + 1 }, some ⟨m.nextId, .CONNECTING⟩) := by
      unfold connect
      rw [if_neg (by rw [h1, h2, Bool.false_or]; exact Bool.false_ne_true)]
    rw [hc1]
    exact ⟨rfl, rfl, rfl⟩

/-- Witness for claim C5 at concrete states. -/
theorem claim_C5_witness :
    connect ⟨none, true, none, none, true, 3⟩ =
      (⟨none, true, none, none, true, 3⟩, none) ∧
    connect (connect ⟨none, false, none, none, false, 0⟩).1 =
      ((connect ⟨none, false, none, none, false, 0⟩).1,
        (connect ⟨none, false, none, none, false, 0⟩).2) :=
  ⟨claim_C5.1 ⟨none, true, none, none, true, 3⟩ (Or.inl rfl),
    (claim_C5.2 ⟨none, false, none, none, false, 0⟩ rfl rfl).1⟩

/-- Claim C6: send_position is a no-op returning nothing whenever the
socket is missing or not OPEN; when OPEN it transmits exactly the 12-byte
little-endian x, y, z payload; and the scenario (1.5, -2.25, 0.0) — bit
patterns 0x3FC00000, 0xC0100000, 0x00000000 — produces exactly the bytes
00 00 C0 3F, 00 00 10 C0, 00 00 00 00. -/
theorem claim_C6 :
    (∀ (ws : Option Socket) (xb yb zb : Nat), wsOpen ws = false →
      sendPosition ws xb yb zb = none) ∧
    (∀ (s : Socket) (xb yb zb : Nat), s.readyState = .OPEN →
      sendPosition (some s) xb yb zb = some (encodePositionBytes xb yb zb)) ∧
    (∀ xb yb zb : Nat, (encodePositionBytes xb yb zb).length = 12) ∧
    sendPosition (some ⟨0, .OPEN⟩) 0x3FC00000 0xC0100000 0x00000000 =
      some [0x00, 0x00, 0xC0, 0x3F, 0x00, 0x00, 0x10, 0xC0,
        0x00, 0x00, 0x00, 0x00] := by
  refine ⟨?_, ?_, ?_, rfl⟩
  · intro ws xb yb zb h
    cases ws with
    | none => rfl
    | some s =>
      have hne : ¬((s.readyState == ReadyState.OPEN) = true) := by
        rw [show (s.readyState == ReadyState.OPEN) = false from h]
        exact Bool.false_ne_true
      simp only [sendPosition]
      rw [if_neg hne]
  · intro s xb yb zb h
    have heq : (s.readyState == ReadyState.OPEN) = true := by
      rw [h]
      rfl
    simp only [sendPosition]
    rw [if_pos heq]
  · intro xb yb zb
    simp [encodePositionBytes, leBytes_length]

/-- Witness for claim C6 at concrete sockets. -/
theorem claim_C6_witness :
    sendPosition (some ⟨3, .CLOSED⟩) 1 2 3 = none ∧
    sendPosition none 1 2 3 = none ∧
    sendPosition (some ⟨4, .OPEN⟩) 1 2 3 = some (encodePositionBytes 1 2 3) :=
  ⟨claim_C6.1 (some ⟨3, .CLOSED⟩) 1 2 3 rfl, claim_C6.1 none 1 2 3 rfl,
    claim_C6.2.1 ⟨4, .OPEN⟩ 1 2 3 rfl⟩

/-- Claim C7: the throttle invokes sendPosition exactly when movement is
active, the Euclidean distance to the last-sent position exceeds 0.01, and
more than 100 ms elapsed since the last send; at distance 1.0 an attempt
50 ms after the last send is suppressed and one at 150 ms is permitted. -/
theorem claim_C7 :
    (∀ (isMoving : Bool) (now : ℚ) (cur : ℚ × ℚ × ℚ) (connOpen : Bool)
      (th : Throttle),
      (tick isMoving now cur connOpen th).2.1 = true ↔
        (isMoving = true ∧
          (1 : ℝ) / 100 <
            Real.sqrt ((distSq cur th.lastSentPosition : ℚ) : ℝ) ∧
          (100 : ℚ) < now - th.lastSentTime)) ∧
    (tick true 1050 (1, 0, 0) true ⟨(0, 0, 0), 1000⟩).2.1 = false ∧
    (tick true 1150 (1, 0, 0) true ⟨(0, 0, 0), 1000⟩).2.1 = true := by
  refine ⟨?_, ?_, ?_⟩
  · intro isMoving now cur connOpen th
    cases isMoving with
    | false =>
      unfold tick
      rw [if_neg (by exact Bool.false_ne_true)]
      simp
    | true =>
      unfold tick
      rw [if_pos rfl]
      by_cases hb : (distanceExceeds cur th.lastSentPosition &&
          decide ((100 : ℚ) < now - th.lastSentTime)) = true
      · rw [if_pos hb]
        rw [Bool.and_eq_true, decide_eq_true_eq] at hb
        exact iff_of_true rfl
          ⟨rfl, (distanceExceeds_iff_sqrt cur th.lastSentPosition).mp hb.1,
            hb.2⟩
      · rw [if_neg hb]
        constructor
        · intro hfalse
          exact absurd hfalse (by simp)
        · rintro ⟨-, hdist, htime⟩
          exact absurd (by
            rw [Bool.and_eq_true, decide_eq_true_eq]
            exact ⟨(distanceExceeds_iff_sqrt cur th.lastSentPosition).mpr
              hdist, htime⟩) hb
  · have hb : (distanceExceeds (1, 0, 0) (0, 0, 0) &&
        decide ((100 : ℚ) < 1050 - 1000)) = false := by
      have h2 : decide ((100 : ℚ) < 1050 - 1000) = false := by
        rw [decide_eq_false_iff_not]
        norm_num
      rw [h2, Bool.and_false]
    unfold tick
    rw [if_pos rfl, if_neg (by rw [hb]; exact Bool.false_ne_true)]
  · have h1 : distanceExceeds (1, 0, 0) (0, 0, 0) = true := by
      simp only [distanceExceeds, distSq, decide_eq_true_eq]
      norm_num
    have hb : (distanceExceeds (1, 0, 0) (0, 0, 0) &&
        decide ((100 : ℚ) < 1150 - 1000)) = true := by
      rw [h1, Bool.true_and, decide_eq_true_eq]
      norm_num
    unfold tick
    rw [if_pos rfl, if_pos hb]

/-- Claim C8 is violated by the code: after connect, open, and reconnect,
the live handle is fresh socket 1, but delivering the superseded socket 0
close event runs the unconditional onclose body, nulling the socket
reference and mutating the state — not the required no-op. -/
theorem claim_C8 :
    c8State.ws = some ⟨1, .CONNECTING⟩ ∧ (handleClose c8State).ws = none ∧
    handleClose c8State ≠ c8State := by
  decide

/-- Claim C9 fails as stated: the scenario buffer decodes successfully, and
a reader can then mutate initial_player_location in place — the write
succeeds and produces a different GameState, because that Position is never
passed to any freeze call. -/
theorem claim_C9_counterexample :
    decodeBincodeGameState c1Buffer = .ok c1Expected ∧
    setInitialLocX c1Expected 0 =
      some ⟨[c1Planet], [], ⟨0, 0x40A00000, 0x40A00000⟩⟩ ∧
    (⟨[c1Planet], [], ⟨0, 0x40A00000, 0x40A00000⟩⟩ : GameState) ≠
      c1Expected := by
  refine ⟨rfl, rfl, ?_⟩
  decide

/-- Claim C9 amended: the planets array, planet records, colors and planet
positions are frozen after decode and in-place writes to them fail, and the
players sequence is left mutable for wholesale replacement — but
initial_player_location is not frozen, so a reader holding the published
reference can mutate it in place. -/
theorem claim_C9 :
    frozenAfterDecode .planetsArray = true ∧
    frozenAfterDecode .planetRecord = true ∧
    frozenAfterDecode .colorRecord = true ∧
    frozenAfterDecode .planetPosition = true ∧
    frozenAfterDecode .playerRecord = false ∧
    frozenAfterDecode .initialLoc = false ∧
    (∀ (p : Planet) (v : Nat), setPlanetSize p v = none) ∧
    (∀ (gs : GameState) (v : Nat), setInitialLocX gs v =
      some { gs with initial_player_location :=
        { gs.initial_player_location with x := v } }) :=
  ⟨rfl, rfl, rfl, rfl, rfl, rfl, fun _ _ => rfl, fun _ _ => rfl⟩

/-- Claim C10: the decoder never requires the buffer to be fully consumed —
appending arbitrary trailing bytes to a successfully decoding buffer still
decodes to the same GameState. -/
theorem claim_C10 : ∀ (b extra : List Nat) (gs : GameState),
    decodeBincodeGameState b = .ok gs →
    decodeBincodeGameState (b ++ extra) = .ok gs := by
  intro b extra gs h
  rw [decodeBincodeGameState] at h ⊢
  obtain ⟨⟨n1, r1⟩, h1, h⟩ := exceptBind_ok_elim h
  obtain ⟨⟨ps, r2⟩, h2, h⟩ := exceptBind_ok_elim h
  obtain ⟨⟨n2, r3⟩, h3, h⟩ := exceptBind_ok_elim h
  obtain ⟨⟨qs, r4⟩, h4, h⟩ := exceptBind_ok_elim h
  obtain ⟨⟨loc, r5⟩, h5, h⟩ := exceptBind_ok_elim h
  simp only [pure, Except.pure, Except.ok.injEq] at h
  subst h
  exact exceptBind_ok_intro (readU64_ext extra h1)
    (exceptBind_ok_intro
      (readList_ext (fun e h => readPlanet_ext e h) n1 extra h2)
      (exceptBind_ok_intro (readU64_ext extra h3)
        (exceptBind_ok_intro
          (readList_ext (fun e h => readPlayer_ext e h) n2 extra h4)
          (exceptBind_ok_intro (readPosition_ext extra h5)
            (by simp [pure, Except.pure])))))

/-- Witness for claim C10: the scenario buffer with garbage appended. -/
theorem claim_C10_witness :
    decodeBincodeGameState (c1Buffer ++ [0xDE, 0xAD, 0xBE, 0xEF]) =
      .ok c1Expected :=
  claim_C10 c1Buffer [0xDE, 0xAD, 0xBE, 0xEF] c1Expected rfl

end Galavox
